import Mathlib

/-!
Verification of the geopolitical news aggregator.

The checked sources contain the React frontend (pages, components, the API
client and type declarations embedded in the README) together with the
repository README.  The backend pipeline (fetch coordinator, deduplicator,
relevance scorer, alert matcher) is described by the specification and the
README but its code is not among the checked sources; those parts are
modelled from the spec, and each such definition says so in its doc
comment.  Frontend behaviour (the RelevanceBadge component, the alert
keyword form, the add-source form) is embedded directly from the
TypeScript sources.

Scores are rational numbers; the spec keeps every score inside the unit
interval, so no floating-point behaviour is relied upon anywhere below.
-/

namespace GeoNews

/-- Relevance levels as declared in the frontend type declarations:
the stored level is one of the strings high, medium, low, and the UI
displays them as CRITICAL, PRIORITY, ROUTINE. -/
inductive RelevanceLevel where
  | high
  | medium
  | low
deriving DecidableEq, Repr

/-- Modelled from the spec: the backend relevance scorer is not among the
checked sources.  Level mapping from the composite score: above 0.7 is
critical (stored as high), above 0.4 is priority (stored as medium),
otherwise routine (stored as low). -/
def relevanceLevel (s : ℚ) : RelevanceLevel :=
  if 7/10 < s then .high
  else if 4/10 < s then .medium
  else .low

/-- Label mapping of the frontend RelevanceBadge component: level high
renders CRITICAL, medium renders PRIORITY, low renders ROUTINE. -/
def badgeLabel : RelevanceLevel → String
  | .high => "CRITICAL"
  | .medium => "PRIORITY"
  | .low => "ROUTINE"

/-- Model of the JavaScript call (score * 100).toFixed(0) used by the
badge on its nonnegative scores: the nearest integer, a tie rounded to
the larger value. -/
def toFixed0 (q : ℚ) : ℤ := ⌊q + 1/2⌋

/-- Percentage text the badge appends when a score is supplied. -/
def badgeScoreText (s : ℚ) : String := toString (toFixed0 (s * 100)) ++ "%"

/-- Modelled from the spec: the default sub-score weights of the backend
relevance scorer (geographic 0.3, military 0.3, diplomatic 0.2,
economic 0.2). -/
structure ScoringWeights where
  wGeo : ℚ
  wMil : ℚ
  wDip : ℚ
  wEco : ℚ
deriving DecidableEq, Repr

/-- The default weight configuration stated by the spec. -/
def defaultWeights : ScoringWeights := ⟨3/10, 3/10, 2/10, 2/10⟩

/-- Modelled from the spec: the composite relevance score is the fixed
weighted combination of the four sub-scores. -/
def compositeScore (w : ScoringWeights) (g m d e : ℚ) : ℚ :=
  w.wGeo * g + w.wMil * m + w.wDip * d + w.wEco * e

/-- Article record carrying the content fields the scorer reads and the
scoring fields it writes, following the frontend Article type declaration
(geo, military, diplomatic and economic sub-scores, the composite
relevance score and the relevance level). -/
structure Article where
  title : String
  body : String
  geoScore : ℚ
  militaryScore : ℚ
  diplomaticScore : ℚ
  economicScore : ℚ
  relevanceScore : ℚ
  level : RelevanceLevel
deriving DecidableEq, Repr

/-- Modelled from the spec: the signal configuration of the relevance
scorer, keyword and gazetteer lists driving the four sub-scores together
with the weight configuration. -/
structure SignalConfig where
  theatres : List String
  militaryTerms : List String
  diplomaticTerms : List String
  economicTerms : List String
  weights : ScoringWeights
deriving DecidableEq, Repr

/-- Modelled from the spec: a sub-score from one signal list, the fraction
of the list's terms occurring as words of the text (a value in the unit
interval obtained by keyword matching). -/
def termScore (terms : List String) (text : String) : ℚ :=
  if terms.isEmpty then 0
  else (terms.countP (fun t => (text.splitOn " ").contains t) : ℚ) /
    terms.length

/-- Modelled from the spec: the relevance scorer recomputes the four
sub-scores, the composite score and the level purely from the article text
and the signal configuration, leaving the content fields unchanged. -/
def scoreArticle (cfg : SignalConfig) (a : Article) : Article :=
  let text := a.title ++ " " ++ a.body
  let g := termScore cfg.theatres text
  let m := termScore cfg.militaryTerms text
  let d := termScore cfg.diplomaticTerms text
  let e := termScore cfg.economicTerms text
  let c := compositeScore cfg.weights g m d e
  { a with
      geoScore := g
      militaryScore := m
      diplomaticScore := d
      economicScore := e
      relevanceScore := c
      level := relevanceLevel c }

/-- Stored article row as the repository keeps it, keyed by the owning
source and the canonical external URL. -/
structure StoredArticle where
  sourceId : Nat
  url : String
  title : String
deriving DecidableEq, Repr

/-- Natural key used for exact-duplicate detection. -/
def artKey (a : StoredArticle) : Nat × String := (a.sourceId, a.url)

/-- Modelled from the spec: whether the store already holds a row with the
given (source, canonical URL) key. -/
def hasKey (store : List StoredArticle) (k : Nat × String) : Bool :=
  store.any (fun b => artKey b == k)

/-- Modelled from the spec: exact dedup on ingestion, an incoming article
whose (source, canonical URL) key already exists in storage is discarded
unconditionally, otherwise the row is inserted. -/
def ingest (store : List StoredArticle) (a : StoredArticle) :
    List StoredArticle :=
  if hasKey store (artKey a) then store else store ++ [a]

/-- Number of stored rows carrying the given key. -/
def countKey (store : List StoredArticle) (k : Nat × String) : Nat :=
  store.countP (fun b => artKey b == k)

/-- Modelled from the spec: greedy bulk duplicate cleanup.  The stored
articles are scanned in order; an article is kept when no already-kept
article is a near-duplicate of it and dropped otherwise, so the first-seen
instance of every duplicate group is retained.  The similarity rule is a
parameter, as the spec leaves its threshold and window configurable. -/
def cleanupScan (sim : StoredArticle → StoredArticle → Bool)
    (kept : List StoredArticle) :
    List StoredArticle → List StoredArticle
  | [] => []
  | a :: rest =>
    if kept.any (fun b => sim b a) then cleanupScan sim kept rest
    else a :: cleanupScan sim (a :: kept) rest

/-- Modelled from the spec: the bulk duplicate-cleanup operation over the
whole store. -/
def cleanupDuplicates (sim : StoredArticle → StoredArticle → Bool)
    (store : List StoredArticle) : List StoredArticle :=
  cleanupScan sim [] store

/-- C1: for every composite score the relevance level is determined exactly
by the thresholds: high (critical) iff score > 0.7, medium (priority) iff
0.4 < score ≤ 0.7, low (routine) iff score ≤ 0.4; the three stored levels
are displayed by the badge as CRITICAL, PRIORITY and ROUTINE. -/
theorem relevanceLevel_threshold_characterisation (s : ℚ) :
    (relevanceLevel s = .high ↔ 7/10 < s) ∧
    (relevanceLevel s = .medium ↔ 4/10 < s ∧ s ≤ 7/10) ∧
    (relevanceLevel s = .low ↔ s ≤ 4/10) ∧
    badgeLabel .high = "CRITICAL" ∧
    badgeLabel .medium = "PRIORITY" ∧
    badgeLabel .low = "ROUTINE" := by
  unfold relevanceLevel
  split_ifs with h1 h2
  · exact ⟨⟨fun _ => h1, fun _ => rfl⟩,
      ⟨(fun h => nomatch h), fun h => absurd h1 (not_lt.mpr h.2)⟩,
      ⟨(fun h => nomatch h),
        fun h => absurd h1 (not_lt.mpr (h.trans (by norm_num)))⟩,
      rfl, rfl, rfl⟩
  · exact ⟨⟨(fun h => nomatch h), fun h => absurd h h1⟩,
      ⟨fun _ => ⟨h2, not_lt.mp h1⟩, fun _ => rfl⟩,
      ⟨(fun h => nomatch h), fun h => absurd h (not_le.mpr h2)⟩,
      rfl, rfl, rfl⟩
  · exact ⟨⟨(fun h => nomatch h), fun h => absurd h h1⟩,
      ⟨(fun h => nomatch h), fun h => absurd h.1 h2⟩,
      ⟨fun _ => not_lt.mp h2, fun _ => rfl⟩,
      rfl, rfl, rfl⟩

/-- C2: scoring the scenario article with sub-scores geographic 0.6,
military 0.8, diplomatic 0.1, economic 0.0 under the default weights
yields the composite score 0.44, and 0.44 maps to the priority (medium)
level. -/
theorem scenario_composite_score_priority :
    compositeScore defaultWeights (6/10) (8/10) (1/10) 0 = 44/100 ∧
    relevanceLevel (compositeScore defaultWeights (6/10) (8/10) (1/10) 0) =
      .medium := by
  constructor
  · norm_num [compositeScore, defaultWeights]
  · norm_num [compositeScore, defaultWeights, relevanceLevel]

/-- C9: the RelevanceBadge label function is total over the three levels,
mapping high to CRITICAL, medium to PRIORITY and low to ROUTINE, and for
every supplied score the displayed percentage is the score times 100
rounded to zero decimal places (it differs from the exact value by at most
one half). -/
theorem badge_labels_total_and_percent_rounded (s : ℚ) :
    badgeLabel .high = "CRITICAL" ∧
    badgeLabel .medium = "PRIORITY" ∧
    badgeLabel .low = "ROUTINE" ∧
    |(toFixed0 (s * 100) : ℚ) - s * 100| ≤ 1/2 := by
  refine ⟨rfl, rfl, rfl, abs_le.mpr ⟨?_, ?_⟩⟩
  · have h := Int.lt_floor_add_one (s * 100 + 1/2)
    unfold toFixed0
    linarith
  · have h := Int.floor_le (s * 100 + 1/2)
    unfold toFixed0
    linarith

/-- C3: scoring is deterministic and idempotent — rescoring an article whose
content and signal configuration are unchanged reproduces exactly the same
four sub-scores, composite score and relevance level, so a second run of
the scorer changes nothing. -/
theorem scoreArticle_deterministic_idempotent (cfg : SignalConfig)
    (a : Article) :
    scoreArticle cfg (scoreArticle cfg a) = scoreArticle cfg a := by
  cases a
  rfl

/-- Helper: a store whose key search succeeds holds at least one row with
that key. -/
theorem countKey_pos_of_hasKey (store : List StoredArticle)
    (k : Nat × String) (h : hasKey store k = true) : 1 ≤ countKey store k := by
  unfold hasKey at h
  unfold countKey
  rcases List.any_eq_true.mp h with ⟨b, hb, hbk⟩
  exact Nat.succ_le_of_lt (List.countP_pos_iff.mpr ⟨b, hb, hbk⟩)

/-- Helper: a store whose key search fails holds no row with that key. -/
theorem countKey_zero_of_not_hasKey (store : List StoredArticle)
    (k : Nat × String) (h : hasKey store k = false) : countKey store k = 0 := by
  unfold hasKey at h
  unfold countKey
  refine List.countP_eq_zero.mpr ?_
  intro b hb
  exact List.any_eq_false.mp h b hb

/-- C4: ingestion is idempotent under exact duplicates — an incoming
article whose (source, canonical URL) key already exists is discarded and
the store is unchanged; ingesting the same article in two separate cycles
equals ingesting it once; and after ingesting, the store holds exactly one
row for the key when it held none before, and exactly as many as before
otherwise. -/
theorem ingest_exact_dedup (store : List StoredArticle) (a : StoredArticle) :
    (hasKey store (artKey a) = true → ingest store a = store) ∧
    ingest (ingest store a) a = ingest store a ∧
    countKey (ingest store a) (artKey a) =
      max 1 (countKey store (artKey a)) := by
  refine ⟨fun h => by simp [ingest, h], ?_, ?_⟩
  · by_cases h : hasKey store (artKey a)
    · simp [ingest, h]
    · simp only [ingest, h, if_false, Bool.false_eq_true]
      have hk : hasKey (store ++ [a]) (artKey a) = true := by
        unfold hasKey
        simp [List.any_append]
      simp [hk]
  · by_cases h : hasKey store (artKey a)
    · have h1 := countKey_pos_of_hasKey store (artKey a) h
      simp only [ingest, h, if_true]
      exact (Nat.max_eq_right h1).symm
    · have h0 := countKey_zero_of_not_hasKey store (artKey a)
        (Bool.eq_false_iff.mpr h)
      simp only [ingest, h, if_false, Bool.false_eq_true]
      unfold countKey at h0 ⊢
      simp [List.countP_append, h0]

/-- C4 witness: a duplicate incoming row with an existing key is discarded
at a concrete store. -/
theorem ingest_exact_dedup_witness :
    ingest [⟨1, "u", "first"⟩] ⟨1, "u", "refetch"⟩ = [⟨1, "u", "first"⟩] :=
  (ingest_exact_dedup [⟨1, "u", "first"⟩] ⟨1, "u", "refetch"⟩).1 (by decide)

/-- Helper: the greedy cleanup scan is idempotent relative to any kept
prefix — rescanning its own output removes nothing further. -/
theorem cleanupScan_idempotent (sim : StoredArticle → StoredArticle → Bool)
    (store : List StoredArticle) :
    ∀ kept : List StoredArticle,
      cleanupScan sim kept (cleanupScan sim kept store) =
        cleanupScan sim kept store := by
  induction store with
  | nil => intro kept; rfl
  | cons a rest ih =>
      intro kept
      by_cases h : kept.any (fun b => sim b a)
      · simp only [cleanupScan, h, if_true]
        exact ih kept
      · simp only [cleanupScan, h, if_false, Bool.false_eq_true]
        rw [ih (a :: kept)]

/-- C5: bulk duplicate cleanup is idempotent — for every similarity rule
and every stored data set, a second cleanup run returns the first run's
output unchanged, so it performs zero additional deletions or merges. -/
theorem cleanupDuplicates_idempotent
    (sim : StoredArticle → StoredArticle → Bool)
    (store : List StoredArticle) :
    cleanupDuplicates sim (cleanupDuplicates sim store) =
      cleanupDuplicates sim store ∧
    (cleanupDuplicates sim (cleanupDuplicates sim store)).length =
      (cleanupDuplicates sim store).length := by
  have h := cleanupScan_idempotent sim store []
  exact ⟨h, by rw [cleanupDuplicates, cleanupDuplicates, h]⟩

/-- Typed failure of one source fetch, following the spec's error
taxonomy. -/
inductive FetchError where
  | network
  | timeout
  | authFailure
  | parseFailure
  | rateLimited
deriving DecidableEq, Repr

/-- Outcome of one source's adapter call: a list of raw items or a typed
failure. -/
inductive FetchOutcome where
  | ok (items : List StoredArticle)
  | failed (e : FetchError)
deriving DecidableEq, Repr

/-- One source inside a fetch cycle together with its adapter outcome. -/
structure SourceFetch where
  sourceId : Nat
  outcome : FetchOutcome
deriving DecidableEq, Repr

/-- Last-fetch status recorded against a source, as the frontend displays
it (success in olive, anything else in maroon). -/
def fetchStatus : FetchOutcome → String
  | .ok _ => "success"
  | .failed _ => "failed"

/-- Items an outcome contributes downstream; a failed source contributes
none. -/
def outcomeItems : FetchOutcome → List StoredArticle
  | .ok items => items
  | .failed _ => []

/-- Summary of a fetch cycle: the per-source statuses in cycle order and
the articles handed downstream for persistence. -/
structure CycleResult where
  statuses : List (Nat × String)
  stored : List StoredArticle
deriving DecidableEq, Repr

/-- Modelled from the spec: the fetch coordinator processes every source of
the cycle, records each source's last-fetch status exactly once, and hands
the items of the successful sources downstream. -/
def runCycle (fetches : List SourceFetch) : CycleResult :=
  ⟨fetches.map (fun f => (f.sourceId, fetchStatus f.outcome)),
   (fetches.map (fun f => outcomeItems f.outcome)).flatten⟩

/-- C6: fetch-cycle fault isolation — the cycle decomposes around any one
source, so that source's failure neither aborts the cycle nor disturbs
the statuses or persisted articles of the sources before and after it;
concretely, when source 1 times out while source 2 is healthy, the cycle
reports source 1 failed and source 2 success and stores source 2's
articles. -/
theorem fetch_cycle_fault_isolation (pre post : List SourceFetch)
    (f : SourceFetch) :
    runCycle (pre ++ f :: post) =
      ⟨(runCycle pre).statuses ++
         (f.sourceId, fetchStatus f.outcome) :: (runCycle post).statuses,
       (runCycle pre).stored ++
         (outcomeItems f.outcome ++ (runCycle post).stored)⟩ ∧
    runCycle [⟨1, .failed .timeout⟩, ⟨2, .ok [⟨2, "u2", "healthy"⟩]⟩] =
      ⟨[(1, "failed"), (2, "success")], [⟨2, "u2", "healthy"⟩]⟩ := by
  constructor
  · simp [runCycle]
  · rfl

/-- The add-source form's reliability input as coded in the frontend
Sources page: a number field initialised to 7. -/
def addSourceReliabilityDefault : Int := 7

/-- Validation range of the reliability input on the add-source form
(HTML number input with minimum 1 and maximum 10). -/
def addSourceReliabilityValid (r : Int) : Bool := 1 ≤ r && r ≤ 10

/-- The source card displays the reliability as a score out of ten. -/
def reliabilityDisplay (r : Int) : String :=
  "Reliability: " ++ toString r ++ "/10"

/-- C8 (divergence witness): the add-source form accepts its default
reliability value 7, which does not lie in the unit interval, and the
source card then displays it out of ten — the form works on a 1..10
scale, not the documented reliability weight in the closed interval
from 0 to 1. -/
theorem addSource_reliability_not_unit_interval :
    addSourceReliabilityValid addSourceReliabilityDefault = true ∧
    (1 : ℚ) < (addSourceReliabilityDefault : ℚ) ∧
    reliabilityDisplay addSourceReliabilityDefault = "Reliability: 7/10" := by
  exact ⟨rfl, by norm_num [addSourceReliabilityDefault], rfl⟩

/-- One interaction with the alert-creation form's keyword list, as coded
in the frontend Alerts page. -/
inductive KeywordOp where
  | add (k : String)
  | remove (k : String)
deriving DecidableEq, Repr

/-- The addKeyword and removeKeyword handlers of the Alerts page: add
appends the keyword only when it is non-empty (JavaScript truthiness of
the string) and not already included; remove filters out every occurrence
and keeps the rest. -/
def applyKeywordOp : KeywordOp → List String → List String
  | .add k, l => if k ≠ "" ∧ k ∉ l then l ++ [k] else l
  | .remove k, l => l.filter (fun x => x ≠ k)

/-- The keyword list reached from the empty initial form state by a
sequence of interactions. -/
def runKeywordOps (ops : List KeywordOp) : List String :=
  ops.foldl (fun l op => applyKeywordOp op l) []

/-- Helper: one form interaction preserves the keyword-list invariant of
no duplicates and no empty keyword. -/
theorem applyKeywordOp_invariant (op : KeywordOp) (l : List String)
    (h1 : l.Nodup) (h2 : "" ∉ l) :
    (applyKeywordOp op l).Nodup ∧ "" ∉ applyKeywordOp op l := by
  cases op with
  | add k =>
      by_cases hk : k ≠ "" ∧ k ∉ l
      · simp only [applyKeywordOp, if_pos hk]
        constructor
        · refine List.Nodup.append h1 (List.nodup_singleton k) ?_
          intro a ha hak
          rw [List.mem_singleton] at hak
          exact hk.2 (hak ▸ ha)
        · intro hmem
          rcases List.mem_append.mp hmem with h | h
          · exact h2 h
          · exact hk.1 (List.mem_singleton.mp h).symm
      · simp only [applyKeywordOp, if_neg hk]
        exact ⟨h1, h2⟩
  | remove k =>
      refine ⟨List.Nodup.filter _ h1, fun hmem => h2 ?_⟩
      exact List.mem_of_mem_filter hmem

/-- Helper: the invariant lifts along any sequence of interactions. -/
theorem runKeywordOps_invariant_aux (ops : List KeywordOp) :
    ∀ l : List String, l.Nodup → "" ∉ l →
      (ops.foldl (fun l op => applyKeywordOp op l) l).Nodup ∧
        "" ∉ ops.foldl (fun l op => applyKeywordOp op l) l := by
  induction ops with
  | nil => exact fun l h1 h2 => ⟨h1, h2⟩
  | cons op rest ih =>
      intro l h1 h2
      have h := applyKeywordOp_invariant op l h1 h2
      simpa using ih (applyKeywordOp op l) h.1 h.2

/-- C10: the alert form's keyword list is always duplicate-free and free of
the empty string under every sequence of interactions starting from the
empty form; removeKeyword removes every occurrence of its argument and
keeps every other keyword; addKeyword appends its argument exactly when it
is non-empty and not already present. -/
theorem keyword_list_invariant (ops : List KeywordOp) (k x : String) :
    (runKeywordOps ops).Nodup ∧
    "" ∉ runKeywordOps ops ∧
    k ∉ applyKeywordOp (.remove k) (runKeywordOps ops) ∧
    (x ≠ k →
      (x ∈ applyKeywordOp (.remove k) (runKeywordOps ops) ↔
        x ∈ runKeywordOps ops)) ∧
    (k ≠ "" → k ∉ runKeywordOps ops →
      applyKeywordOp (.add k) (runKeywordOps ops) = runKeywordOps ops ++ [k]) := by
  obtain ⟨h1, h2⟩ :=
    runKeywordOps_invariant_aux ops [] List.nodup_nil (List.not_mem_nil "")
  refine ⟨h1, h2, ?_, ?_, ?_⟩
  · intro hmem
    simp only [applyKeywordOp, List.mem_filter] at hmem
    have hfalse : (k ≠ k) := by simpa using hmem.2
    exact hfalse rfl
  · intro hxk
    simp [applyKeywordOp, List.mem_filter, hxk]
  · intro hk hmem
    simp only [applyKeywordOp, if_pos (And.intro hk hmem)]

/-- C10 witness: a concrete form session — removing a keyword keeps an
unrelated keyword, and adding a fresh non-empty keyword appends it. -/
theorem keyword_list_invariant_witness :
    ("border" ∈ applyKeywordOp (.remove "nato")
        (runKeywordOps [.add "nato", .add "border"]) ↔
      "border" ∈ runKeywordOps [.add "nato", .add "border"]) ∧
    applyKeywordOp (.add "sanctions")
        (runKeywordOps [.add "nato", .add "border"]) =
      runKeywordOps [.add "nato", .add "border"] ++ ["sanctions"] :=
  ⟨(keyword_list_invariant [.add "nato", .add "border"] "nato" "border").2.2.2.1
      (by decide),
   (keyword_list_invariant [.add "nato", .add "border"] "sanctions"
      "border").2.2.2.2 (by decide) (by decide)⟩

/-- Scored article as the alert matcher sees it. -/
structure ScoredArticle where
  id : Nat
  title : String
  body : String
  region : String
  country : String
  theme : String
  domain : String
  level : RelevanceLevel
deriving DecidableEq, Repr

/-- Rank of a relevance level for the minimum-relevance comparison. -/
def levelRank : RelevanceLevel → Nat
  | .low => 0
  | .medium => 1
  | .high => 2

/-- Alert rule fields the matcher reads: the filter sets, the minimum
relevance and the active flag. -/
structure AlertRule where
  id : Nat
  regions : List String
  countries : List String
  themes : List String
  domains : List String
  keywords : List String
  minRelevance : RelevanceLevel
  active : Bool
deriving DecidableEq, Repr

/-- Modelled from the spec: case-insensitive substring match of a keyword
against the article title and body; a pattern occurs in a text exactly
when splitting the text on the pattern yields more than one piece. -/
def keywordMatches (kw : String) (art : ScoredArticle) : Bool :=
  ((art.title ++ " " ++ art.body).toLower.splitOn kw.toLower).length != 1

/-- Modelled from the spec: an empty filter set means any; a non-empty set
must contain the article's attribute. -/
def setMatches (filters : List String) (attr : String) : Bool :=
  filters.isEmpty || filters.contains attr

/-- Modelled from the spec: an active alert matches an article whose level
reaches the alert's minimum relevance when every filter set is empty or
matched by the corresponding article attribute. -/
def alertMatches (al : AlertRule) (art : ScoredArticle) : Bool :=
  al.active &&
  decide (levelRank al.minRelevance ≤ levelRank art.level) &&
  setMatches al.regions art.region &&
  setMatches al.countries art.country &&
  setMatches al.themes art.theme &&
  setMatches al.domains art.domain &&
  (al.keywords.isEmpty || al.keywords.any (fun kw => keywordMatches kw art))

/-- State of the alert matcher: every alert rule with its trigger counter,
plus the recorded (article id, alert id) pairs that have already produced
a trigger. -/
structure MatcherState where
  alerts : List (AlertRule × Nat)
  triggered : List (Nat × Nat)
deriving DecidableEq, Repr

/-- Modelled from the spec: evaluate one article against the alert list in
order; on a match whose (article id, alert id) pair is not yet recorded,
increment that alert's counter and record the pair; otherwise leave the
alert untouched. -/
def matchAlerts (art : ScoredArticle) :
    List (AlertRule × Nat) → List (Nat × Nat) →
      List (AlertRule × Nat) × List (Nat × Nat)
  | [], trig => ([], trig)
  | (r, c) :: rest, trig =>
    if alertMatches r art ∧ (art.id, r.id) ∉ trig then
      ((r, c + 1) :: (matchAlerts art rest ((art.id, r.id) :: trig)).1,
        (matchAlerts art rest ((art.id, r.id) :: trig)).2)
    else
      ((r, c) :: (matchAlerts art rest trig).1,
        (matchAlerts art rest trig).2)

/-- Modelled from the spec: process one newly scored article. -/
def matchArticle (st : MatcherState) (art : ScoredArticle) : MatcherState :=
  ⟨(matchAlerts art st.alerts st.triggered).1,
    (matchAlerts art st.alerts st.triggered).2⟩

/-- Modelled from the spec: run the alert matcher over a set of newly
scored articles. -/
def runMatcher (arts : List ScoredArticle) (st : MatcherState) :
    MatcherState :=
  arts.foldl matchArticle st

/-- Helper: matching one article never adds, removes or reorders alert
rules; only the counters change. -/
theorem matchAlerts_rules (art : ScoredArticle)
    (alerts : List (AlertRule × Nat)) :
    ∀ trig, (matchAlerts art alerts trig).1.map Prod.fst =
      alerts.map Prod.fst := by
  induction alerts with
  | nil => intro trig; rfl
  | cons rc rest ih =>
      intro trig
      obtain ⟨r, c⟩ := rc
      by_cases h : alertMatches r art ∧ (art.id, r.id) ∉ trig
      · simp [matchAlerts, if_pos h, ih]
      · simp [matchAlerts, if_neg h, ih]

/-- Helper: the recorded trigger-pair set only ever grows. -/
theorem matchAlerts_trig_mono (art : ScoredArticle)
    (alerts : List (AlertRule × Nat)) :
    ∀ trig p, p ∈ trig → p ∈ (matchAlerts art alerts trig).2 := by
  induction alerts with
  | nil => intro trig p hp; exact hp
  | cons rc rest ih =>
      intro trig p hp
      obtain ⟨r, c⟩ := rc
      by_cases h : alertMatches r art ∧ (art.id, r.id) ∉ trig
      · simp only [matchAlerts, if_pos h]
        exact ih _ p (List.mem_cons_of_mem _ hp)
      · simp only [matchAlerts, if_neg h]
        exact ih trig p hp

/-- Helper: after one article is processed, every matching alert's
(article id, alert id) pair is recorded. -/
theorem matchAlerts_coverage (art : ScoredArticle)
    (alerts : List (AlertRule × Nat)) :
    ∀ trig r c, (r, c) ∈ alerts → alertMatches r art = true →
      (art.id, r.id) ∈ (matchAlerts art alerts trig).2 := by
  induction alerts with
  | nil => intro trig r c hmem _; cases hmem
  | cons rc rest ih =>
      intro trig r c hmem hmatch
      obtain ⟨r0, c0⟩ := rc
      rcases List.mem_cons.mp hmem with heq | htail
      · injection heq with hr hc
        subst hr
        by_cases h : alertMatches r art ∧ (art.id, r.id) ∉ trig
        · simp only [matchAlerts, if_pos h]
          exact matchAlerts_trig_mono art rest _ _ (List.mem_cons_self _ _)
        · simp only [matchAlerts, if_neg h]
          have hpair : (art.id, r.id) ∈ trig := by
            by_contra hnot
            exact h ⟨hmatch, hnot⟩
          exact matchAlerts_trig_mono art rest trig _ hpair
      · by_cases h : alertMatches r0 art ∧ (art.id, r0.id) ∉ trig
        · simp only [matchAlerts, if_pos h]
          exact ih _ r c htail hmatch
        · simp only [matchAlerts, if_neg h]
          exact ih trig r c htail hmatch

/-- Helper: when every matching alert's pair is already recorded, matching
one article changes nothing at all. -/
theorem matchAlerts_stable (art : ScoredArticle)
    (alerts : List (AlertRule × Nat)) :
    ∀ trig, (∀ r c, (r, c) ∈ alerts → alertMatches r art = true →
        (art.id, r.id) ∈ trig) →
      matchAlerts art alerts trig = (alerts, trig) := by
  induction alerts with
  | nil => intro trig _; rfl
  | cons rc rest ih =>
      intro trig hcov
      obtain ⟨r, c⟩ := rc
      have hcond : ¬(alertMatches r art = true ∧ (art.id, r.id) ∉ trig) := by
        rintro ⟨hm, hn⟩
        exact hn (hcov r c (List.mem_cons_self _ _) hm)
      simp only [matchAlerts, if_neg hcond]
      rw [ih trig (fun r0 c0 hmem hm =>
        hcov r0 c0 (List.mem_cons_of_mem _ hmem) hm)]

/-- Helper: a matcher run preserves the rule list and only grows the
trigger-pair set. -/
theorem runMatcher_rules_mono (arts : List ScoredArticle) :
    ∀ st : MatcherState,
      (runMatcher arts st).alerts.map Prod.fst = st.alerts.map Prod.fst ∧
      ∀ p ∈ st.triggered, p ∈ (runMatcher arts st).triggered := by
  induction arts with
  | nil => intro st; exact ⟨rfl, fun p hp => hp⟩
  | cons a rest ih =>
      intro st
      have hrw : runMatcher (a :: rest) st =
        runMatcher rest (matchArticle st a) := rfl
      have hstep := ih (matchArticle st a)
      refine ⟨?_, ?_⟩
      · rw [hrw]
        exact hstep.1.trans (matchAlerts_rules a st.alerts st.triggered)
      · intro p hp
        rw [hrw]
        exact hstep.2 p (matchAlerts_trig_mono a st.alerts st.triggered p hp)

/-- Helper: after a full matcher run, every article of the processed set
has its matching (article id, alert id) pairs recorded. -/
theorem runMatcher_coverage (arts : List ScoredArticle) :
    ∀ st : MatcherState, ∀ a ∈ arts,
      ∀ r, r ∈ (runMatcher arts st).alerts.map Prod.fst →
        alertMatches r a = true →
        (a.id, r.id) ∈ (runMatcher arts st).triggered := by
  induction arts with
  | nil => intro st a ha; cases ha
  | cons a0 rest ih =>
      intro st a ha r hr hmatch
      have hrw : runMatcher (a0 :: rest) st =
        runMatcher rest (matchArticle st a0) := rfl
      rw [hrw] at hr ⊢
      rcases List.mem_cons.mp ha with heq | htail
      · subst heq
        have hmap : (runMatcher rest (matchArticle st a)).alerts.map
            Prod.fst = st.alerts.map Prod.fst :=
          ((runMatcher_rules_mono rest (matchArticle st a)).1).trans
            (matchAlerts_rules a st.alerts st.triggered)
        rw [hmap] at hr
        rcases List.mem_map.mp hr with ⟨⟨r1, c1⟩, hmem, hfst⟩
        have hr1 : r = r1 := hfst.symm
        subst hr1
        have hpair : (a.id, r.id) ∈ (matchArticle st a).triggered :=
          matchAlerts_coverage a st.alerts st.triggered r c1 hmem hmatch
        exact (runMatcher_rules_mono rest (matchArticle st a)).2 _ hpair
      · exact ih (matchArticle st a0) a htail r hr hmatch

/-- Helper: a state in which every matching pair of the article set is
already recorded is a fixed point of the matcher run. -/
theorem runMatcher_stable (arts : List ScoredArticle) :
    ∀ st : MatcherState,
      (∀ a ∈ arts, ∀ r c, (r, c) ∈ st.alerts → alertMatches r a = true →
        (a.id, r.id) ∈ st.triggered) →
      runMatcher arts st = st := by
  induction arts with
  | nil => intro st _; rfl
  | cons a rest ih =>
      intro st hcov
      obtain ⟨alerts, trig⟩ := st
      have hfix : matchArticle ⟨alerts, trig⟩ a = ⟨alerts, trig⟩ := by
        have h := matchAlerts_stable a alerts trig
          (fun r c hmem hm => hcov a (List.mem_cons_self _ _) r c hmem hm)
        simp [matchArticle, h]
      have hrw : runMatcher (a :: rest) ⟨alerts, trig⟩ =
        runMatcher rest (matchArticle ⟨alerts, trig⟩ a) := rfl
      rw [hrw, hfix]
      exact ih ⟨alerts, trig⟩
        (fun a0 ha0 r c hmem hm =>
          hcov a0 (List.mem_cons_of_mem _ ha0) r c hmem hm)

/-- C7: an active alert with all filter sets empty and minimum relevance
routine matches every scored article, and the matcher is idempotent over
any article set — re-running it on the state left by a first run changes
no counter and no recorded (article id, alert id) pair, because each pair
that has already produced a trigger is skipped. -/
theorem alert_matching_once_per_pair (art : ScoredArticle) (aid : Nat)
    (arts : List ScoredArticle) (st : MatcherState) :
    alertMatches ⟨aid, [], [], [], [], [], .low, true⟩ art = true ∧
    runMatcher arts (runMatcher arts st) = runMatcher arts st := by
  constructor
  · cases art with
    | mk id title body region country theme domain lv => cases lv <;> rfl
  · apply runMatcher_stable
    intro a ha r c hmem hm
    exact runMatcher_coverage arts st a ha r
      (List.mem_map_of_mem Prod.fst hmem) hm

end GeoNews
